import Mathlib

/-!
Shallow embedding of the quote-cache middleware of this repository
(`src/cache-middleware.ts`), together with proofs settling the frozen claims
about its specification.

Modelling conventions:
* JavaScript numbers are modelled exactly: integer-valued quantities
  (timestamps from `Date.now()`, TTL options in whole seconds, sizes,
  counters) as `ℤ`/`ℕ`, and the price/volatility pipeline - where genuine
  fractions arise - as `ℚ` wrapped in `JSNum`, which also carries the IEEE
  special values `NaN`/`Infinity`/`-Infinity` that the code explicitly
  guards against.  Floating-point rounding is not modelled.
* A JavaScript `Map` is an insertion-ordered association list with unique
  keys (`JSMap`); `Set` is an insertion-ordered `List`.
* Host primitives (`new URL`, `URLSearchParams`, `JSON.stringify` of the
  fixed key record, `parseFloat`, `btoa`/`atob`, md5) are modelled to the
  depth the middleware observes them, as documented on each definition.
* Exceptions are modelled by `Option`/outcome constructors: a `none` from
  `createCacheKey` is the `TypeError` thrown by `new URL`.
-/

namespace JupApi

/-! ## Character-list string helpers (kernel-friendly models of host string ops) -/

/-- Split before/after the first occurrence of a character: returns the part
before it and, when the character occurs, the part after it. -/
def splitFirst (c : Char) : List Char → List Char × Option (List Char)
  | [] => ([], none)
  | x :: xs =>
    if x = c then ([], some xs)
    else
      let r := splitFirst c xs
      (x :: r.1, r.2)

/-- Split a character list on every occurrence of a separator character. -/
def splitAll (c : Char) : List Char → List (List Char)
  | [] => [[]]
  | x :: xs =>
    if x = c then [] :: splitAll c xs
    else
      match splitAll c xs with
      | [] => [[x]]
      | g :: gs => (x :: g) :: gs

/-- Whether the first list is an initial segment of the second. -/
def leadsWith : List Char → List Char → Bool
  | [], _ => true
  | _ :: _, [] => false
  | p :: ps, x :: xs => p = x && leadsWith ps xs

/-- Whether the needle occurs as a contiguous sublist of the haystack;
model of the host `String.prototype.includes`. -/
def hasSub (needle : List Char) : List Char → Bool
  | [] => leadsWith needle []
  | x :: xs => leadsWith needle (x :: xs) || hasSub needle xs

/-- Model of `context.url.includes(sub)`. -/
def urlIncludes (url sub : String) : Bool := hasSub sub.data url.data

/-! ## URL and query-string model -/

/-- Characters allowed in a URL scheme after the initial letter. -/
def isSchemeChar (c : Char) : Bool := c.isAlphanum || c = '+' || c = '-' || c = '.'

/-- Whether a character list is a valid URL scheme (letter, then
letters/digits/`+`/`-`/`.`). -/
def validScheme : List Char → Bool
  | [] => false
  | c :: cs => c.isAlpha && cs.all isSchemeChar

/-- Result of the host `new URL(...)` constructor, reduced to the one field
the middleware reads: the query string (without the leading `?`). -/
structure URLRecord where
  search : List Char
deriving DecidableEq, Repr

/-- Model of the host `new URL(url)` constructor.  Returns `none` exactly when
the constructor throws: the simplified WHATWG condition used here is the
presence of a valid `scheme ":"` prefix.  On success the query string is
everything after the first `?` and before any `#`.  Percent-decoding and
base-URL resolution are not modelled (no claim depends on them). -/
def newURL (url : String) : Option URLRecord :=
  match splitFirst ':' url.data with
  | (_, none) => none
  | (scheme, some _) =>
    if validScheme scheme then
      match (splitFirst '?' url.data).2 with
      | none => some ⟨[]⟩
      | some rest => some ⟨(splitFirst '#' rest).1⟩
    else none

/-- Model of `new URLSearchParams(search).get(name)`: split on `&`, take the
part before the first `=` as the key and the rest as the value, return the
value of the first pair whose key matches, `null` (`none`) when absent.
Percent-decoding is not modelled. -/
def getParam (search : List Char) (name : String) : Option String :=
  match (splitAll '&' search).find? (fun p => (splitFirst '=' p).1 = name.data) with
  | none => none
  | some p =>
    match splitFirst '=' p with
    | (_, none) => some ""
    | (_, some v) => some ⟨v⟩

/-! ## JSON serialization model (for the cache key and the cached-response blob) -/

/-- Escape one character for a JSON string literal (quote and backslash; the
inputs of this development contain no control characters). -/
def jsonEscapeChar (c : Char) : List Char :=
  if c = '"' then ['\\', '"']
  else if c = '\\' then ['\\', '\\']
  else [c]

/-- Model of `JSON.stringify` on a string value. -/
def jsonStr (s : String) : String :=
  ⟨'"' :: (s.data.flatMap jsonEscapeChar) ++ ['"']⟩

/-- Model of `JSON.stringify` on a string-or-null value (the `params.get`
results are `string | null`). -/
def jsonNullable (v : Option String) : String :=
  match v with
  | none => "null"
  | some s => jsonStr s

/-- Model of `JSON.stringify(keyData)` for the fixed four-field key record of
`createCacheKey`, with the object-literal key order of the source. -/
def keyDataJson (inputMint outputMint amount slippageBps : Option String) : String :=
  "\x7b\"inputMint\":" ++ jsonNullable inputMint ++
  ",\"outputMint\":" ++ jsonNullable outputMint ++
  ",\"amount\":" ++ jsonNullable amount ++
  ",\"slippageBps\":" ++ jsonNullable slippageBps ++ "\x7d"

/-- Model of the host md5 hex digest from `crypto`.  The digest is a host
primitive; every claim depends only on its being a deterministic function of
its input, so it is modelled as an injective tagging of the input string. -/
def md5hex (s : String) : String := "md5(" ++ s ++ ")"

/-! ## Base64 model (host `btoa`/`atob`, used for the data-URL substitution) -/

/-- The standard base64 alphabet. -/
def base64Alphabet : List Char :=
  "ABCDEFGHIJKLMNOPQRSTUVWXYZabcdefghijklmnopqrstuvwxyz0123456789+/".data

/-- Character of a sextet value. -/
def b64Char (n : ℕ) : Char := base64Alphabet.getD n 'A'

/-- Sextet value of a base64 character. -/
def b64Val (c : Char) : ℕ := ((base64Alphabet.indexOf c) : ℕ)

/-- Encode a list of byte values (the code points of the Latin-1 strings this
development feeds to `btoa`) in base64, three bytes to four characters. -/
def b64Encode : List ℕ → List Char
  | [] => []
  | [a] => [b64Char (a / 4), b64Char (a % 4 * 16), '=', '=']
  | [a, b] => [b64Char (a / 4), b64Char (a % 4 * 16 + b / 16), b64Char (b % 16 * 4), '=']
  | a :: b :: c :: rest =>
    b64Char (a / 4) :: b64Char (a % 4 * 16 + b / 16) ::
      b64Char (b % 16 * 4 + c / 64) :: b64Char (c % 64) :: b64Encode rest

/-- Decode base64 back to byte values, inverse of `b64Encode`. -/
def b64Decode : List Char → List ℕ
  | a :: b :: c :: d :: rest =>
    if c = '=' then [b64Val a * 4 + b64Val b / 16]
    else if d = '=' then
      [b64Val a * 4 + b64Val b / 16, b64Val b % 16 * 16 + b64Val c / 4]
    else
      (b64Val a * 4 + b64Val b / 16) :: (b64Val b % 16 * 16 + b64Val c / 4) ::
        (b64Val c % 4 * 64 + b64Val d) :: b64Decode rest
  | _ => []

/-- Model of the host `btoa` over the code points of the string (the strings
encoded by the middleware are ASCII JSON). -/
def btoa (s : String) : String := ⟨b64Encode (s.data.map Char.toNat)⟩

/-- Model of the host `atob`, inverse of `btoa` on its range. -/
def atob (s : String) : String := ⟨(b64Decode s.data).map Char.ofNat⟩

/-! ## JavaScript numbers (exact value plus the IEEE special values) -/

/-- A JavaScript number as the volatility tracker observes it: an exact
rational, or one of the special values `NaN` / `Infinity` / `-Infinity`. -/
inductive JSNum where
  | nan : JSNum
  | posInf : JSNum
  | negInf : JSNum
  | val : ℚ → JSNum
deriving DecidableEq, Repr

/-- Model of the host `isFinite`. -/
def jsIsFinite : JSNum → Bool
  | .val _ => true
  | _ => false

/-- Model of the JavaScript comparison `x <= 0` (false on `NaN`). -/
def jsLe0 : JSNum → Bool
  | .nan => false
  | .posInf => false
  | .negInf => true
  | .val q => q ≤ 0

/-- Accumulate a run of decimal digits, returning the value, the number of
digits consumed, and the remaining characters. -/
def takeDigits : List Char → ℕ → ℕ → ℕ × ℕ × List Char
  | [], acc, n => (acc, n, [])
  | c :: cs, acc, n =>
    if c.isDigit then takeDigits cs (acc * 10 + (c.toNat - 48)) (n + 1)
    else (acc, n, c :: cs)

/-- Model of the host `parseFloat` on the strings this development feeds it:
optional sign, `Infinity`, or decimal digits with an optional fractional
part, parsed as the longest valid prefix; anything else is `NaN`.
Exponent suffixes and leading whitespace are not modelled (no claim's input
uses them). -/
def parseFloat (s : String) : JSNum :=
  let core : List Char → Bool → JSNum := fun cs neg =>
    if leadsWith "Infinity".data cs then (if neg then .negInf else .posInf)
    else
      match takeDigits cs 0 0 with
      | (ip, ipn, rest) =>
        match rest with
        | '.' :: frac =>
          match takeDigits frac 0 0 with
          | (fp, fpn, _) =>
            if ipn = 0 ∧ fpn = 0 then .nan
            else
              let sign : ℤ := if neg then -1 else 1
              .val (mkRat (sign * (ip * 10 ^ fpn + fp)) (10 ^ fpn))
        | _ =>
          if ipn = 0 then .nan
          else .val (mkRat (if neg then -(ip : ℤ) else (ip : ℤ)) 1)
  match s.data with
  | '-' :: cs => core cs true
  | '+' :: cs => core cs false
  | cs => core cs false

/-- Find the suffix following the first occurrence of a marker sublist. -/
def afterMarker (marker : List Char) : List Char → Option (List Char)
  | [] => none
  | x :: xs =>
    if leadsWith marker (x :: xs) then some ((x :: xs).drop marker.length)
    else afterMarker marker xs

/-- Model of reading `JSON.parse(responseData)?.outAmount` when it is a
string: a focused extractor that locates the `"outAmount":"..."` member in
the JSON body text and returns its raw string value; `none` when the member
is absent, not a string, or the body does not contain the marker (the code
then skips the observation; a full JSON parser is a host primitive and is
modelled only to the depth the tracker observes it). -/
def extractOutAmount (body : String) : Option String :=
  match afterMarker "\"outAmount\":\"".data body.data with
  | none => none
  | some rest => some ⟨(splitFirst '"' rest).1⟩

/-! ## JavaScript `Map` model: insertion-ordered association list -/

/-- A JavaScript `Map` with string keys. -/
abbrev JSMap (α : Type) := List (String × α)

/-- Model of `Map.prototype.get`. -/
def mapGet {α : Type} : JSMap α → String → Option α
  | [], _ => none
  | (k, v) :: rest, key => if k = key then some v else mapGet rest key

/-- Model of `Map.prototype.set`: update in place when the key exists
(keeping its position), otherwise append. -/
def mapSet {α : Type} : JSMap α → String → α → JSMap α
  | [], key, v => [(key, v)]
  | (k, w) :: rest, key, v =>
    if k = key then (k, v) :: rest else (k, w) :: mapSet rest key v

/-- Model of `Map.prototype.delete`. -/
def mapDelete {α : Type} : JSMap α → String → JSMap α
  | [], _ => []
  | (k, w) :: rest, key => if k = key then rest else (k, w) :: mapDelete rest key

/-- Delete a list of keys in order (the `forEach(([key]) => map.delete(key))`
pattern of the cleanup sweep). -/
def deleteKeys {α : Type} (m : JSMap α) (ks : List String) : JSMap α :=
  ks.foldl mapDelete m

/-- Insertion sort on usage patterns by ascending `lastUsed` (model of the
host `Array.prototype.sort` with comparator `a[1].lastUsed - b[1].lastUsed`;
the claims depend only on the sorted order, not on stability). -/
def insertBy {α : Type} (le : α → α → Bool) (x : α) : List α → List α
  | [] => [x]
  | y :: ys => if le x y then x :: y :: ys else y :: insertBy le x ys

/-- Sort a list with an insertion sort over a boolean comparator. -/
def sortBy {α : Type} (le : α → α → Bool) : List α → List α
  | [] => []
  | x :: xs => insertBy le x (sortBy le xs)

/-! ## Data model of the middleware (`QuoteCacheOptions`, metrics, state) -/

/-- Configuration options for the quote cache middleware
(`QuoteCacheOptions` in the source).  TTL fields are in whole seconds and
sizes in whole entries, as everywhere in the repository; `none` is an
omitted field. -/
structure QuoteCacheOptions where
  maxSize : Option ℤ := none
  defaultTTL : Option ℤ := none
  enableMetrics : Option Bool := none
  enableAdaptiveTTL : Option Bool := none
  enablePredictive : Option Bool := none
  maxTTL : Option ℤ := none
  minTTL : Option ℤ := none
deriving DecidableEq, Repr

/-- Performance metrics (`CacheMetrics` in the source).  The rolling average
is in milliseconds; with hit latencies observed at a single instant it is
always an exact integer, so the division in `recordResponseTime` is modelled
on `ℤ`. -/
structure CacheMetrics where
  hits : ℕ
  misses : ℕ
  requests : ℕ
  avgResponseTime : ℤ
  apiCallsSaved : ℕ
deriving DecidableEq, Repr

/-- The all-zero metrics record the constructor and `clear` install. -/
def initMetrics : CacheMetrics :=
  { hits := 0, misses := 0, requests := 0, avgResponseTime := 0, apiCallsSaved := 0 }

/-- The plain response object the middleware stores and re-serializes
(`status`, `statusText`, a headers object, and the body text).  The
pipeline's `Response` is modelled by the same record, with `ok` derived from
the status as in the host class. -/
structure JSResponse where
  status : ℤ
  statusText : String
  headers : JSMap String
  body : String
deriving DecidableEq, Repr

/-- Model of `Response.ok`: status in the 2xx range. -/
def JSResponse.ok (r : JSResponse) : Bool :=
  decide (200 ≤ r.status) && decide (r.status < 300)

/-- One stored cache entry: the serialized response and its `timestamp`,
plus the insertion time and per-entry TTL (milliseconds) that the
third-party LRU store records for expiry. -/
structure CacheEntry where
  response : JSResponse
  timestamp : ℤ
  lruStart : ℤ
  lruTTL : ℤ
deriving DecidableEq, Repr

/-- One usage-pattern record (`{ count, lastUsed }` in the source). -/
structure UsagePattern where
  count : ℕ
  lastUsed : ℤ
deriving DecidableEq, Repr

/-- The kind of a tracked background timer: the periodic cleanup interval or
a scheduled warm-up for a fingerprint. -/
inductive TimerKind where
  | cleanupInterval : TimerKind
  | warmUp : String → TimerKind
deriving DecidableEq, Repr

/-- A pending in-flight request as later callers would observe it: `some r`
resolves with the response `r`, `none` rejects.  (The source never inserts
into this table; the field exists to model the code faithfully.) -/
abbrev PendingPromise := Option JSResponse

/-- The full mutable state of one `QuoteCacheMiddleware` instance.  Timers
are identified by the value of `nextTimer` at creation, which only grows, so
a cancelled timer's identity is never reused. -/
structure CacheState where
  options : QuoteCacheOptions
  cache : JSMap CacheEntry
  pendingRequests : JSMap PendingPromise
  metrics : CacheMetrics
  responseTimes : List ℤ
  priceChanges : JSMap (List JSNum)
  requestHistory : JSMap (List ℤ)
  usagePatterns : JSMap UsagePattern
  warmingQueue : List String
  cleanupTimers : List (ℕ × TimerKind)
  nextTimer : ℕ
  lastCleanup : ℤ
deriving DecidableEq, Repr

/-- Model of the JavaScript `x || d` defaulting idiom on numbers (`0` is
falsy). -/
def jsOr (x : Option ℤ) (d : ℤ) : ℤ :=
  match x with
  | none => d
  | some v => if v = 0 then d else v

/-- Model of `x || d` on an already-present number. -/
def jsOrNum (x d : ℤ) : ℤ := if x = 0 then d else x

/-- Whether an advanced feature is requested (the
`options.enableAdaptiveTTL || options.enablePredictive` guard). -/
def advancedEnabled (o : QuoteCacheOptions) : Bool :=
  o.enableAdaptiveTTL.getD false || o.enablePredictive.getD false

/-- The `ttl` the third-party LRU store is constructed with:
`(options.defaultTTL || 30) * 1000` milliseconds, readable later as
`this.cache.ttl`. -/
def cacheTtlMs (o : QuoteCacheOptions) : ℤ := jsOr o.defaultTTL 30 * 1000

/-- Model of `validateOptions` (nullish-coalescing defaults, then the three
range checks, throwing on the first violated one). -/
def validateOptions (o : QuoteCacheOptions) : Except String Unit :=
  let minTTL := o.minTTL.getD 5
  let maxTTL := o.maxTTL.getD 120
  let defaultTTL := o.defaultTTL.getD 30
  let maxSize := o.maxSize.getD 1000
  if minTTL ≥ maxTTL then
    .error "minTTL must be less than maxTTL"
  else if defaultTTL < minTTL ∨ defaultTTL > maxTTL then
    .error "defaultTTL must be between minTTL and maxTTL"
  else if maxSize ≤ 0 ∨ maxSize > 10000 then
    .error "maxSize must be between 1 and 10000"
  else .ok ()

/-- The fresh state the constructor body builds: empty stores and metrics;
when an advanced feature is on, `startPeriodicCleanup` registers the
interval timer as timer `0`. -/
def initState (o : QuoteCacheOptions) (now : ℤ) : CacheState :=
  { options := o
    cache := []
    pendingRequests := []
    metrics := initMetrics
    responseTimes := []
    priceChanges := []
    requestHistory := []
    usagePatterns := []
    warmingQueue := []
    cleanupTimers := if advancedEnabled o then [(0, .cleanupInterval)] else []
    nextTimer := if advancedEnabled o then 1 else 0
    lastCleanup := now }

/-- Model of the argument validation of the third-party
`new LRUCache({max, ttl})` constructor the middleware invokes (lru-cache
v7+, the versions supporting this option shape): `max` must be 0 or a
positive integer, a nonzero `ttl` must be positive, and at least one of the
two must be nonzero - each violation throws a `TypeError` synchronously.
Non-integer values are not representable in the integer options model. -/
def lruCacheCtor (maxArg ttlArg : ℤ) : Except String Unit :=
  if maxArg ≠ 0 ∧ ¬ 0 < maxArg then
    .error "max option must be a nonnegative integer"
  else if ttlArg ≠ 0 ∧ ¬ 0 < ttlArg then
    .error "ttl must be a positive integer if specified"
  else if maxArg = 0 ∧ ttlArg = 0 then
    .error "At least one of max, maxSize, or ttl, is required"
  else .ok ()

/-- Model of `new QuoteCacheMiddleware(options)`: validate only when an
advanced feature is requested, then construct the third-party LRU store
with `max = options.maxSize || 1000` and
`ttl = (options.defaultTTL || 30) * 1000`, whose own argument validation
can also throw; only then the fresh state exists. -/
def mkMiddleware (o : QuoteCacheOptions) (now : ℤ) : Except String CacheState :=
  match (if advancedEnabled o then validateOptions o else Except.ok ()) with
  | .error e => .error e
  | .ok _ =>
    match lruCacheCtor (jsOr o.maxSize 1000) (cacheTtlMs o) with
    | .error e => .error e
    | .ok _ => .ok (initState o now)

/-! ## Cache Key Builder (`createCacheKey`) -/

/-- Fingerprint of an already-parsed URL: md5 of the JSON of the four
essential quote parameters. -/
def cacheKeyOfURL (u : URLRecord) : String :=
  md5hex (keyDataJson (getParam u.search "inputMint") (getParam u.search "outputMint")
    (getParam u.search "amount") (getParam u.search "slippageBps"))

/-- Model of `createCacheKey(url)`.  `none` is the `TypeError` the host
`new URL(url)` constructor throws on an unparseable URL; nothing in the
function catches it. -/
def createCacheKey (url : String) : Option String :=
  (newURL url).map cacheKeyOfURL

/-! ## Entry Store reads (third-party LRU store plus `isCacheValid`) -/

/-- Model of the third-party LRU store's `get` at time `now`: the entry
unless it is stale (its age strictly exceeds its per-entry TTL; a TTL of `0`
means no expiry).  Recency reordering and capacity eviction are not
modelled: no claim depends on them. -/
def lruGet (cache : JSMap CacheEntry) (key : String) (now : ℤ) : Option CacheEntry :=
  match mapGet cache key with
  | none => none
  | some e => if e.lruTTL ≠ 0 ∧ now - e.lruStart > e.lruTTL then none else some e

/-- Model of the LRU store's `has` (false on stale entries). -/
def lruHas (cache : JSMap CacheEntry) (key : String) (now : ℤ) : Bool :=
  (lruGet cache key now).isSome

/-- Model of `isCacheValid`: the entry's age must be below
`this.cache.ttl || 30000` - the store-wide constructor TTL, not the entry's
own TTL. -/
def isCacheValid (s : CacheState) (e : CacheEntry) (now : ℤ) : Bool :=
  now - e.timestamp < jsOrNum (cacheTtlMs s.options) 30000

/-- Model of `recordResponseTime`: push, keep the last 50 once the buffer
exceeds 100, and recompute the average.  All recorded values are `0` in this
single-instant model (both `Date.now()` reads coincide), so the `ℤ` division
is exact. -/
def recordResponseTime (s : CacheState) (t : ℤ) : CacheState :=
  let rts := s.responseTimes ++ [t]
  let rts := if rts.length > 100 then rts.drop (rts.length - 50) else rts
  { s with responseTimes := rts
           metrics := { s.metrics with avgResponseTime := rts.sum / (rts.length : ℤ) } }

/-! ## Volatility Tracker (`trackPriceChange`, `calculateVolatility`) -/

/-- One step of the relative-change loop: the guard
`prev <= 0 || curr <= 0 || !isFinite(prev) || !isFinite(curr)` skips the
pair (`continue`); otherwise the change `(curr - prev) / prev` is pushed.
With exact arithmetic the pushed change is always finite, so the source's
`isFinite(change)` check always passes. -/
def pairChange (prev curr : JSNum) : List ℚ :=
  if jsLe0 prev || jsLe0 curr || !jsIsFinite prev || !jsIsFinite curr then []
  else
    match prev, curr with
    | .val p, .val c => [(c - p) / p]
    | _, _ => []

/-- The relative changes over consecutive observation pairs. -/
def volChanges : List JSNum → List ℚ
  | a :: b :: rest => pairChange a b ++ volChanges (b :: rest)
  | _ => []

/-- Mean of a list of rationals (the `reduce / length` of the source). -/
def listMean (l : List ℚ) : ℚ := l.sum / (l.length : ℚ)

/-- Population variance of a list of rationals, written with the source's
`diff * diff` accumulator. -/
def listVar (l : List ℚ) : ℚ :=
  (l.map (fun c => (c - listMean l) * (c - listMean l))).sum / (l.length : ℚ)

/-- Squared high-volatility threshold: `0.05 ^ 2`. -/
def highVolSq : ℚ := mkRat 1 400

/-- Squared low-volatility threshold: `0.01 ^ 2`. -/
def lowVolSq : ℚ := mkRat 1 10000

/-- Model of `calculateVolatility` up to the final square root: absent key or
fewer than two prices give `0`; otherwise the variance of the valid
relative changes, `0` when no pair survives the guard or the variance is
negative.  The source's `isFinite` checks on mean/variance always pass with
exact arithmetic. -/
def calculateVolatilitySq (pc : JSMap (List JSNum)) (key : String) : ℚ :=
  match mapGet pc key with
  | none => 0
  | some prices =>
    if prices.length < 2 then 0
    else
      let changes := volChanges prices
      if changes.length = 0 then 0
      else
        let variance := listVar changes
        if variance < 0 then 0 else variance

/-- Model of `calculateVolatility`: `Math.sqrt` of the variance.  The
source's early `return 0` branches commute with the square root because
`Real.sqrt 0 = 0`, so taking the root of `calculateVolatilitySq` is exactly
the source's result. -/
noncomputable def calculateVolatility (pc : JSMap (List JSNum)) (key : String) : ℝ :=
  Real.sqrt (calculateVolatilitySq pc key)

/-- Model of `trackPriceChange`: extract `outAmount`, reject non-string /
non-finite / non-positive observations, append, cap the history at 10 by
shifting the oldest out. -/
def trackPriceChange (s : CacheState) (key : String) (responseData : String) : CacheState :=
  match extractOutAmount responseData with
  | none => s
  | some amt =>
    let price := parseFloat amt
    if !jsIsFinite price || jsLe0 price then s
    else
      let changes := (mapGet s.priceChanges key).getD [] ++ [price]
      let changes := if changes.length > 10 then changes.drop 1 else changes
      { s with priceChanges := mapSet s.priceChanges key changes }

/-! ## TTL Policy (`getSmartTTL`) -/

/-- The static popularity list of `getSmartTTL` (SOL and USDC mints). -/
def popularPairs : List String :=
  ["So11111111111111111111111111111111111111112",
   "EPjFWdd5AufqSSqeM2qN1xzybapC8G4wEGGkZwyTDt1v"]

/-- Configured minimum TTL in milliseconds: `(options.minTTL || 5) * 1000`. -/
def ttlMinMs (o : QuoteCacheOptions) : ℤ := jsOr o.minTTL 5 * 1000

/-- Configured maximum TTL in milliseconds: `(options.maxTTL || 120) * 1000`. -/
def ttlMaxMs (o : QuoteCacheOptions) : ℤ := jsOr o.maxTTL 120 * 1000

/-- The pre-adjustment base TTL of `getSmartTTL`: the configured default,
overridden to the fixed 60000 ms baseline when either mint is on the
popularity list. -/
def baseTTLOf (o : QuoteCacheOptions) (u : URLRecord) : ℤ :=
  if popularPairs.contains ((getParam u.search "inputMint").getD "")
      || popularPairs.contains ((getParam u.search "outputMint").getD "") then 60000
  else jsOr o.defaultTTL 30 * 1000

/-- The adaptive adjustment step of `getSmartTTL`.  The source compares
`calculateVolatility` (the square root) against `0.05` and `0.01`; since the
root is monotone and the thresholds positive, that is equivalent to
comparing the variance against the squared thresholds, which keeps this
definition executable (`volAdjust_matchesSqrtComparisons` below proves the
equivalence).  `baseTTL * 0.3` is written `baseTTL * 3 / 10`: every base TTL
the middleware produces is a multiple of 1000, on which the integer division
is exact. -/
def volAdjust (s : CacheState) (key : String) (baseTTL : ℤ) : ℤ :=
  if s.options.enableAdaptiveTTL.getD false && (mapGet s.priceChanges key).isSome then
    let vsq := calculateVolatilitySq s.priceChanges key
    if vsq > highVolSq then max (ttlMinMs s.options) (baseTTL * 3 / 10)
    else if vsq < lowVolSq then min (ttlMaxMs s.options) (baseTTL * 2)
    else baseTTL
  else baseTTL

/-- Model of `getSmartTTL(url)` (milliseconds): `none` is the `TypeError` of
`new URL` on an unparseable URL (inside `post` it is swallowed by the
enclosing `try`). -/
def getSmartTTL (s : CacheState) (url : String) : Option ℤ :=
  match newURL url with
  | none => none
  | some u =>
    let key := cacheKeyOfURL u
    some (min (ttlMaxMs s.options)
      (max (ttlMinMs s.options) (volAdjust s key (baseTTLOf s.options u))))

/-! ## Usage Pattern Tracker and warming (`trackUsagePattern`, `scheduleWarmUp`) -/

/-- Model of `scheduleWarmUp`: exclusive membership in the warming queue, a
fresh tracked timer (the warm-up delay plays no role in the untimed firing
model), and the 100-entry cap dropping the oldest 50. -/
def scheduleWarmUp (s : CacheState) (key : String) : CacheState :=
  if s.warmingQueue.contains key then s
  else
    let wq := s.warmingQueue ++ [key]
    let timers := s.cleanupTimers ++ [(s.nextTimer, TimerKind.warmUp key)]
    let wq := if wq.length > 100 then wq.drop 50 else wq
    { s with warmingQueue := wq, cleanupTimers := timers, nextTimer := s.nextTimer + 1 }

/-- Model of `trackUsagePattern`: bump count and recency; past the threshold
of 3 and not already scheduled, enqueue a warm-up. -/
def trackUsagePattern (s : CacheState) (key : String) (now : ℤ) : CacheState :=
  let p0 := (mapGet s.usagePatterns key).getD { count := 0, lastUsed := now }
  let p : UsagePattern := { count := p0.count + 1, lastUsed := now }
  let s1 := { s with usagePatterns := mapSet s.usagePatterns key p }
  if p.count > 3 && !s1.warmingQueue.contains key then scheduleWarmUp s1 key else s1

/-! ## Interception Layer (`pre` and `post` hooks) -/

/-- The request context the `pre` hook reads (`context.url`,
`context.init.method`). -/
structure RequestContext where
  url : String
  method : String
deriving DecidableEq, Repr

/-- The response context the `post` hook reads.  `cloneFails` models a
rejection while cloning/reading the response body, the failure the hook's
`try` swallows. -/
structure ResponseContext where
  url : String
  method : String
  response : JSResponse
  cloneFails : Bool
deriving DecidableEq, Repr

/-- What JSON.stringify produces on the stored plain response record
(`JSON.stringify(cached.response)`), with the source's field order. -/
def jsonHeaders (hs : JSMap String) : String :=
  "\x7b" ++ String.intercalate "," (hs.map (fun kv => jsonStr kv.1 ++ ":" ++ jsonStr kv.2)) ++ "\x7d"

/-- Serialization of the whole stored response record - status, statusText,
headers object and body text - as `JSON.stringify(cached.response)` yields
it. -/
def jsonResponseBlob (r : JSResponse) : String :=
  "\x7b\"status\":" ++ toString r.status ++ ",\"statusText\":" ++ jsonStr r.statusText ++
    ",\"headers\":" ++ jsonHeaders r.headers ++ ",\"body\":" ++ jsonStr r.body ++ "\x7d"

/-- The substituted URL a cache hit installs:
`data:application/json;base64,` plus the base64 of the serialized record. -/
def dataUrlOf (r : JSResponse) : String :=
  "data:application/json;base64," ++ btoa (jsonResponseBlob r)

/-- The payload the transport would deliver for a substituted data URL: the
base64-decoded part after the fixed prefix (`none` when the URL is not such
a data URL).  Data-URL responses always carry status 200 regardless of the
status recorded in the serialized blob. -/
def dataUrlPayload (u : String) : Option String :=
  match afterMarker "data:application/json;base64,".data u.data with
  | none => none
  | some rest => some (atob ⟨rest⟩)

/-- Outcome of one `pre` invocation, alongside the mutated state: the hook
passed the request through untouched, substituted a data URL (cache hit),
attached to a pending request (with the substituted URL if it resolved),
recorded a miss, or threw out of `createCacheKey`. -/
inductive PreOutcome where
  | passthrough : PreOutcome
  | hit : String → PreOutcome
  | pendingHit : Option String → PreOutcome
  | miss : PreOutcome
  | threw : PreOutcome
deriving DecidableEq, Repr

/-- The pending-request check at the tail of `pre` (reached when there is no
valid cached entry): a `pendingHit` increments hits and calls-saved, awaits
the shared promise and substitutes its value, swallowing a rejection;
otherwise the lookup is a miss. -/
def preCheckPending (s : CacheState) (key : String) (now : ℤ) : CacheState × PreOutcome :=
  match mapGet s.pendingRequests key with
  | some p =>
    let s1 := { s with metrics := { s.metrics with
      hits := s.metrics.hits + 1, apiCallsSaved := s.metrics.apiCallsSaved + 1 } }
    match p with
    | some resp =>
      let s2 := recordResponseTime s1 (now - now)
      (s2, .pendingHit (some (dataUrlOf resp)))
    | none => (s1, .pendingHit none)
  | none =>
    ({ s with metrics := { s.metrics with misses := s.metrics.misses + 1 } }, .miss)

/-- The cached-entry check of `pre` (after fingerprinting and optional usage
tracking): a valid cached entry is a hit that bumps the hit and calls-saved
counters, records the (instantaneous) latency and substitutes the data URL;
otherwise control falls to the pending-request check. -/
def preAfterKey (s2 : CacheState) (key : String) (now : ℤ) : CacheState × PreOutcome :=
  match lruGet s2.cache key now with
  | some cached =>
    if isCacheValid s2 cached now then
      let s3 := { s2 with metrics := { s2.metrics with
        hits := s2.metrics.hits + 1, apiCallsSaved := s2.metrics.apiCallsSaved + 1 } }
      (recordResponseTime s3 (now - now), .hit (dataUrlOf cached.response))
    else preCheckPending s2 key now
  | none => preCheckPending s2 key now

/-- Model of the `pre` hook.  Mutations performed before `createCacheKey`
throws (the request counter) persist, as under JavaScript exception
semantics. -/
def preStep (s : CacheState) (ctx : RequestContext) (now : ℤ) : CacheState × PreOutcome :=
  if ctx.method != "GET" || !urlIncludes ctx.url "/quote" then (s, .passthrough)
  else
    let s1 := { s with metrics := { s.metrics with requests := s.metrics.requests + 1 } }
    match createCacheKey ctx.url with
    | none => (s1, .threw)
    | some key =>
      let s2 := if s1.options.enablePredictive.getD false then trackUsagePattern s1 key now else s1
      preAfterKey s2 key now

/-- Outcome of one `post` invocation: the hook returned `context.response`,
or threw out of the `createCacheKey` call that sits outside its `try`. -/
inductive PostOutcome where
  | returned : PostOutcome
  | threw : PostOutcome
deriving DecidableEq, Repr

/-- Model of the `post` hook.  The guard checks only the URL and
`response.ok` (not the method).  A body-read failure or a `getSmartTTL`
throw lands in the `catch`, leaving the state unchanged and returning the
original response. -/
def postStep (s : CacheState) (ctx : ResponseContext) (now : ℤ) : CacheState × PostOutcome :=
  if !urlIncludes ctx.url "/quote" || !ctx.response.ok then (s, .returned)
  else
    match createCacheKey ctx.url with
    | none => (s, .threw)
    | some key =>
      if ctx.cloneFails then (s, .returned)
      else
        let responseData := ctx.response.body
        match getSmartTTL s ctx.url with
        | none => (s, .returned)
        | some ttl =>
          let stored : JSResponse :=
            { status := ctx.response.status, statusText := ctx.response.statusText
              headers := ctx.response.headers, body := responseData }
          let entry : CacheEntry :=
            { response := stored, timestamp := now, lruStart := now, lruTTL := ttl }
          let s1 := { s with cache := mapSet s.cache key entry }
          let s2 := if s1.options.enableAdaptiveTTL.getD false
            then trackPriceChange s1 key responseData else s1
          ({ s2 with pendingRequests := mapDelete s2.pendingRequests key }, .returned)

/-! ## Background Reclaimer and timers (`performCleanup`, warm-up firing, `clear`) -/

/-- Comparator of the usage-pattern sort (`a[1].lastUsed - b[1].lastUsed`). -/
def patternLe (a b : String × UsagePattern) : Bool := a.2.lastUsed ≤ b.2.lastUsed

/-- Model of `performCleanup`: drop empty price histories and stale usage
patterns, then bound both maps by deleting all but the 500 newest entries
(insertion order for price histories, `lastUsed` order for usage patterns). -/
def performCleanup (s : CacheState) (now : ℤ) : CacheState :=
  let pc := s.priceChanges.filter (fun kv => !kv.2.isEmpty)
  let up := s.usagePatterns.filter (fun kv => !(decide (now - kv.2.lastUsed > 3600000)))
  let pc := if pc.length > 1000 then deleteKeys pc ((pc.take (pc.length - 500)).map (·.1)) else pc
  let up := if up.length > 1000 then
    deleteKeys up (((sortBy patternLe up).take (up.length - 500)).map (·.1)) else up
  { s with priceChanges := pc, usagePatterns := up, lastCleanup := now }

/-- The warm-up timer callback: bump prediction confidence when the key is
still queued and absent from the store, then always (`finally`) leave the
warming queue and release the timer handle. -/
def fireWarmUp (s : CacheState) (id : ℕ) (key : String) (now : ℤ) : CacheState :=
  let s1 :=
    if s.warmingQueue.contains key && !lruHas s.cache key now then
      match mapGet s.usagePatterns key with
      | some p =>
        { s with usagePatterns := mapSet s.usagePatterns key { p with count := p.count + 1 } }
      | none => s
    else s
  { s1 with warmingQueue := s1.warmingQueue.filter (fun k => !(k = key : Bool))
            cleanupTimers := s1.cleanupTimers.filter (fun t => !(t.1 = id : Bool)) }

/-- Fire the tracked timer with the given identity, when it is still
pending: the cleanup interval runs `performCleanup` (and keeps ticking), a
warm-up timeout runs its callback.  A cancelled or unknown timer cannot
fire. -/
def fireStep (s : CacheState) (id : ℕ) (now : ℤ) : CacheState :=
  match s.cleanupTimers.find? (fun t => t.1 = id) with
  | none => s
  | some (_, .cleanupInterval) => performCleanup s now
  | some (_, .warmUp key) => fireWarmUp s id key now

/-- Model of `clear()` (and of `destroy()`, which delegates to it): every
store, tracker, queue and metric is reset and every tracked timer is
cancelled. -/
def clearStep (s : CacheState) : CacheState :=
  { s with cache := [], pendingRequests := [], metrics := initMetrics
           responseTimes := [], priceChanges := [], requestHistory := []
           usagePatterns := [], warmingQueue := [], cleanupTimers := [] }

/-! ## Operational semantics and reachability -/

/-- One externally triggerable operation on a middleware instance. -/
inductive CacheOp where
  | pre : RequestContext → ℤ → CacheOp
  | post : ResponseContext → ℤ → CacheOp
  | clearAll : CacheOp
  | destroy : CacheOp
  | fire : ℕ → ℤ → CacheOp

/-- Run one operation (exceptions thrown out of a hook leave the state the
hook had built up to the throw, which the hook models already return). -/
def runOp (s : CacheState) : CacheOp → CacheState
  | .pre ctx now => (preStep s ctx now).1
  | .post ctx now => (postStep s ctx now).1
  | .clearAll => clearStep s
  | .destroy => clearStep s
  | .fire id now => fireStep s id now

/-- States a middleware instance can actually be in: freshly constructed, or
one operation after a reachable state. -/
inductive Reachable : CacheState → Prop where
  | init (o : QuoteCacheOptions) (now : ℤ) (s : CacheState) :
      mkMiddleware o now = .ok s → Reachable s
  | step (s : CacheState) (op : CacheOp) : Reachable s → Reachable (runOp s op)

/-! ## Concrete fixtures used by the claim instances -/

/-- A GET quote URL over two non-popular mints. -/
def quoteUrl : String := "https://h/quote?inputMint=A&outputMint=B&amount=1"

/-- A GET quote URL whose input mint is the popular SOL mint. -/
def popUrl : String :=
  "https://h/quote?inputMint=So11111111111111111111111111111111111111112&outputMint=B&amount=1"

/-- A successful quote response body carrying `outAmount` 100. -/
def okResp : JSResponse :=
  { status := 200, statusText := "OK", headers := [("content-type", "application/json")]
    body := "\x7b\"outAmount\":\"100\"\x7d" }

/-- A freshly constructed basic-mode middleware (all options omitted). -/
def basicState : CacheState := initState {} 0

/-- A GET request context for `quoteUrl`. -/
def ctxQuoteGet : RequestContext := { url := quoteUrl, method := "GET" }

/-- The response context of a completed successful call to `popUrl`. -/
def rctxPop : ResponseContext :=
  { url := popUrl, method := "GET", response := okResp, cloneFails := false }

/-- The state after `post` has cached the `popUrl` response at time 0. -/
def sPop : CacheState := (postStep basicState rctxPop 0).1

/-- The fingerprint of `popUrl`. -/
def kPop : String := (createCacheKey popUrl).getD ""

/-- The plain record `post` stores for the `popUrl` response. -/
def storedPop : JSResponse :=
  { status := 200, statusText := "OK", headers := [("content-type", "application/json")]
    body := okResp.body }

/-- An adaptive-mode configuration with every numeric option defaulted. -/
def adaptiveOpts : QuoteCacheOptions := { enableAdaptiveTTL := some true }

/-- The adaptive-mode state after one successful `post` for `quoteUrl` at
time 0; its price history for the fingerprint holds exactly one
observation. -/
def sAdapt : CacheState :=
  (postStep (initState adaptiveOpts 0)
    { url := quoteUrl, method := "GET", response := okResp, cloneFails := false } 0).1

/-- The fingerprint of `quoteUrl`. -/
def kQuote : String := (createCacheKey quoteUrl).getD ""

end JupApi

namespace JupApi

/-! ## C1 - request de-duplication (the pending-request table is never armed) -/

/-- Claim C1: with no stored entry, N concurrent lookups of one fingerprint
are said to issue exactly one outbound call, attach the later callers to the
in-flight call, and raise `apiCallsSaved` by `N - 1`.  The code never
inserts into `pendingRequests` (`pre` only reads it, `post` only deletes),
so two back-to-back lookups of an unseen fingerprint with no completed
response in between BOTH miss and proceed outbound: misses is 2 rather than
1, `apiCallsSaved` stays 0 rather than 1, and the pending table is still
empty. -/
theorem dedup_never_happens :
    (preStep basicState ctxQuoteGet 0).2 = .miss
  ∧ (preStep (preStep basicState ctxQuoteGet 0).1 ctxQuoteGet 0).2 = .miss
  ∧ ((preStep (preStep basicState ctxQuoteGet 0).1 ctxQuoteGet 0).1).metrics.misses = 2
  ∧ ((preStep (preStep basicState ctxQuoteGet 0).1 ctxQuoteGet 0).1).metrics.apiCallsSaved = 0
  ∧ ((preStep (preStep basicState ctxQuoteGet 0).1 ctxQuoteGet 0).1).pendingRequests = [] := by
  decide

/-! ## C4 - pass-through of non-GET and non-quote requests -/

/-- Claim C4: a request that is not a GET or does not target the quote path
is said never to be fingerprinted, stored, or counted.  `pre` indeed ignores
a POST (state unchanged), but `post` checks only the URL and `response.ok`,
never the method, so a successful POST whose URL contains `/quote` IS
fingerprinted and stored (one cache entry appears; `post` touches no
metric). -/
theorem post_stores_non_get :
    preStep basicState { url := quoteUrl, method := "POST" } 0 = (basicState, .passthrough)
  ∧ ((postStep basicState
      { url := quoteUrl, method := "POST", response := okResp, cloneFails := false } 0).1).cache.length = 1
  ∧ ((postStep basicState
      { url := quoteUrl, method := "POST", response := okResp, cloneFails := false } 0).1).metrics
      = basicState.metrics
  ∧ (postStep basicState
      { url := quoteUrl, method := "POST", response := okResp, cloneFails := false } 0).2 = .returned := by
  decide

/-! ## C5 - cache key builder totality -/

/-- Claim C5: computing the fingerprint is said never to throw, even on
malformed URLs.  `createCacheKey` calls the host `new URL(url)` with no
try/catch, which throws a `TypeError` on an unparseable URL (modelled as
`none`): on the input `not-a-valid-url` the key computation throws, and a
GET quote request with such a URL makes the whole `pre` hook throw (after
the request counter was already incremented). -/
theorem createCacheKey_throws :
    createCacheKey "not-a-valid-url" = none
  ∧ (preStep basicState { url := "not-a-valid-url/quote?x", method := "GET" } 0).2 = .threw
  ∧ ((preStep basicState { url := "not-a-valid-url/quote?x", method := "GET" } 0).1).metrics.requests = 1 := by
  decide

/-! ## C2 - hit window (per-entry TTL versus the store-wide default) -/

/-- The warm-up scheduler does not touch the entry store or the options. -/
theorem scheduleWarmUp_cache (s : CacheState) (k : String) :
    (scheduleWarmUp s k).cache = s.cache ∧ (scheduleWarmUp s k).options = s.options := by
  unfold scheduleWarmUp
  split <;> exact ⟨rfl, rfl⟩

/-- The usage tracker does not touch the entry store or the options. -/
theorem trackUsagePattern_cache (s : CacheState) (k : String) (now : ℤ) :
    (trackUsagePattern s k now).cache = s.cache
  ∧ (trackUsagePattern s k now).options = s.options := by
  unfold trackUsagePattern
  dsimp only
  split
  · exact (scheduleWarmUp_cache _ _)
  · exact ⟨rfl, rfl⟩

/-- The pending-request tail of `pre` never reports a cache hit. -/
theorem preCheckPending_not_hit (s : CacheState) (k : String) (now : ℤ) (u : String) :
    (preCheckPending s k now).2 ≠ .hit u := by
  unfold preCheckPending
  cases h : mapGet s.pendingRequests k with
  | none => simp
  | some p => cases p <;> simp

/-- Claim C2 counterexample: an entry stored for a popular pair carries the
policy TTL `T = 60000` ms, yet a lookup `45000` ms later - strictly before
`t0 + T` - is a miss, because `isCacheValid` compares the age against the
store-wide default TTL (30000 ms), not the entry's own TTL. -/
theorem perEntryTTL_not_checked :
    (mapGet sPop.cache kPop).map CacheEntry.lruTTL = some 60000
  ∧ (mapGet sPop.cache kPop).map CacheEntry.timestamp = some 0
  ∧ ((45000 : ℤ) - 0 < 60000)
  ∧ (preStep sPop { url := popUrl, method := "GET" } 45000).2 = .miss := by
  decide

/-- Claim C2 as amended: for a stored entry, a GET quote lookup is a hit if
and only if the entry's age is at most its per-entry policy TTL (the LRU
store's lazy expiry, re-checked on read) AND strictly below the store-wide
default TTL `(defaultTTL || 30) * 1000` that `isCacheValid` re-checks on
every read; the effective hit window is the minimum of the two, not the
per-entry TTL alone. -/
theorem lookup_hit_iff (s : CacheState) (ctx : RequestContext) (now : ℤ) (key : String)
    (e : CacheEntry)
    (hm : ctx.method = "GET") (hq : urlIncludes ctx.url "/quote" = true)
    (hk : createCacheKey ctx.url = some key)
    (he : mapGet s.cache key = some e) (ht : 0 < e.lruTTL) :
    (∃ u, (preStep s ctx now).2 = .hit u) ↔
      now - e.lruStart ≤ e.lruTTL
      ∧ now - e.timestamp < jsOrNum (cacheTtlMs s.options) 30000 := by
  have hguard : (ctx.method != "GET" || !urlIncludes ctx.url "/quote") = false := by
    simp [hm, hq]
  unfold preStep
  rw [hguard]
  simp only [Bool.false_eq_true, if_false, hk]
  set s1 : CacheState :=
    { s with metrics := { s.metrics with requests := s.metrics.requests + 1 } } with hs1
  set s2 : CacheState :=
    if s1.options.enablePredictive.getD false = true then trackUsagePattern s1 key now else s1
    with hs2
  have hc2 : s2.cache = s.cache ∧ s2.options = s.options := by
    rw [hs2]
    split
    · exact ⟨((trackUsagePattern_cache s1 key now).1).trans rfl,
        ((trackUsagePattern_cache s1 key now).2).trans rfl⟩
    · exact ⟨rfl, rfl⟩
  have hlru : lruGet s2.cache key now =
      if e.lruTTL ≠ 0 ∧ now - e.lruStart > e.lruTTL then none else some e := by
    rw [hc2.1]
    unfold lruGet
    rw [he]
  unfold preAfterKey
  by_cases hstale : e.lruTTL ≠ 0 ∧ now - e.lruStart > e.lruTTL
  · rw [hlru, if_pos hstale]
    constructor
    · rintro ⟨u, hu⟩
      exact absurd hu (preCheckPending_not_hit _ _ _ _)
    · rintro ⟨hage, -⟩
      exact absurd hstale.2 (not_lt.mpr hage)
  · rw [hlru, if_neg hstale]
    have hage : now - e.lruStart ≤ e.lruTTL := by
      rcases not_and_or.mp hstale with h0 | hgt
      · exact absurd ht.ne' (by simpa using h0)
      · exact not_lt.mp hgt
    by_cases hvalid : isCacheValid s2 e now = true
    · dsimp only
      rw [if_pos hvalid]
      have : now - e.timestamp < jsOrNum (cacheTtlMs s.options) 30000 := by
        have hv := hvalid
        unfold isCacheValid at hv
        rw [hc2.2] at hv
        simpa using hv
      simp only [this, hage, and_self, iff_true]
      exact ⟨_, rfl⟩
    · dsimp only
      rw [if_neg hvalid]
      constructor
      · rintro ⟨u, hu⟩
        exact absurd hu (preCheckPending_not_hit _ _ _ _)
      · rintro ⟨-, hv⟩
        refine absurd ?_ hvalid
        unfold isCacheValid
        rw [hc2.2]
        simpa using hv

/-- Witness for `lookup_hit_iff`: with age 10000 ms, per-entry TTL 60000 ms
and default window 30000 ms, the lookup of the stored popular-pair entry is
a hit. -/
theorem lookup_hit_iff_witness :
    ∃ u, (preStep sPop { url := popUrl, method := "GET" } 10000).2 = .hit u :=
  (lookup_hit_iff sPop { url := popUrl, method := "GET" } 10000 kPop
      { response := storedPop, timestamp := 0, lruStart := 0, lruTTL := 60000 }
      rfl (by decide) (by decide) (by decide) (by decide)).mpr
    ⟨by decide, by decide⟩

/-! ## C3 - caching transparency of the substituted response -/

set_option maxRecDepth 100000

/-- Claim C3: the consumer is said to receive exactly the outcome of the
unwrapped client, a cache hit carrying the same body as the cached call.
On a hit the code rewrites the URL to a base64 data URL of
`JSON.stringify(cached.response)` - the serialization of the whole stored
record `(status, statusText, headers, body)` - so the transport delivers
that wrapper object as the body, not the original body text (the repository
tests expect hit results to equal the original).  The true parts also hold:
a body-read failure in `post` leaves everything unchanged and the original
response is returned, and `post` always returns `context.response`. -/
theorem hit_body_is_wrapper :
    (preStep sPop { url := popUrl, method := "GET" } 10000).2 = .hit (dataUrlOf storedPop)
  ∧ dataUrlPayload (dataUrlOf storedPop) = some (jsonResponseBlob storedPop)
  ∧ jsonResponseBlob storedPop ≠ okResp.body
  ∧ postStep basicState
      { url := popUrl, method := "GET", response := okResp, cloneFails := true } 0
      = (basicState, .returned) := by
  decide

/-! ## C6 - TTL adjustment on short price histories -/

/-- The URLRecord of `quoteUrl`. -/
def uQuote : URLRecord := ⟨"inputMint=A&outputMint=B&amount=1".data⟩

/-- Claim C6 counterexample: after one successful adaptive-mode response the
fingerprint's history holds exactly one observation, yet `getSmartTTL`
returns 60000 ms where the unadjusted TTL (same state before the
observation) is 30000 ms: the volatility adjustment was not skipped - the
zero volatility of a one-point history counts as low volatility and doubles
the TTL. -/
theorem one_observation_doubles_ttl :
    mapGet sAdapt.priceChanges kQuote = some [JSNum.val 100]
  ∧ getSmartTTL sAdapt quoteUrl = some 60000
  ∧ getSmartTTL (initState adaptiveOpts 0) quoteUrl = some 30000 := by
  decide

/-- Claim C6 as amended: with adaptive TTL enabled, the adjustment step is
skipped only when the fingerprint has no recorded history at all; when a
history with a single observation exists, `calculateVolatility` returns 0,
which is below the low threshold, so the base TTL is doubled (capped at
`maxTTL`) before the final clamp. -/
theorem volAdjust_short_history (s : CacheState) (url : String) (u : URLRecord)
    (hu : newURL url = some u) (ha : s.options.enableAdaptiveTTL.getD false = true) :
    (mapGet s.priceChanges (cacheKeyOfURL u) = none →
      getSmartTTL s url = some (min (ttlMaxMs s.options)
        (max (ttlMinMs s.options) (baseTTLOf s.options u))))
  ∧ (∀ p, mapGet s.priceChanges (cacheKeyOfURL u) = some [p] →
      getSmartTTL s url = some (min (ttlMaxMs s.options)
        (max (ttlMinMs s.options) (min (ttlMaxMs s.options) (baseTTLOf s.options u * 2))))) := by
  constructor
  · intro hnone
    simp only [getSmartTTL, hu]
    simp only [volAdjust, hnone, Option.isSome_none, Bool.and_false, Bool.false_eq_true, if_false]
  · intro p hone
    simp only [getSmartTTL, hu]
    simp only [volAdjust, hone, Option.isSome_some, Bool.and_true, ha, if_true]
    simp only [calculateVolatilitySq, hone]
    norm_num [highVolSq, lowVolSq]

/-- Witness for `volAdjust_short_history`: instantiated at the
one-observation adaptive state, the TTL equals the doubled-then-clamped
base. -/
theorem volAdjust_short_history_witness :
    getSmartTTL sAdapt quoteUrl = some (min (ttlMaxMs sAdapt.options)
      (max (ttlMinMs sAdapt.options)
        (min (ttlMaxMs sAdapt.options) (baseTTLOf sAdapt.options uQuote * 2)))) :=
  (volAdjust_short_history sAdapt quoteUrl uQuote (by decide) (by decide)).2
    (JSNum.val 100) (by decide)

/-! ## C7 - configuration validation raises exactly on the documented conditions -/

/-- The validation helper errors exactly on the three documented range
violations (after nullish defaulting). -/
theorem validateOptions_error_iff (o : QuoteCacheOptions) :
    (∃ e, validateOptions o = .error e) ↔
      (o.maxTTL.getD 120 ≤ o.minTTL.getD 5
        ∨ o.defaultTTL.getD 30 < o.minTTL.getD 5
        ∨ o.maxTTL.getD 120 < o.defaultTTL.getD 30
        ∨ o.maxSize.getD 1000 < 1
        ∨ 10000 < o.maxSize.getD 1000) := by
  unfold validateOptions
  dsimp only
  split_ifs with h1 h2 h3
  · exact iff_of_true ⟨_, rfl⟩ (Or.inl (by omega))
  · refine iff_of_true ⟨_, rfl⟩ ?_
    rcases h2 with h2 | h2
    · exact Or.inr (Or.inl h2)
    · exact Or.inr (Or.inr (Or.inl h2))
  · refine iff_of_true ⟨_, rfl⟩ ?_
    rcases h3 with h3 | h3
    · exact Or.inr (Or.inr (Or.inr (Or.inl (by omega))))
    · exact Or.inr (Or.inr (Or.inr (Or.inr h3)))
  · refine iff_of_false ?_ ?_
    · rintro ⟨e, he⟩
      exact absurd he (by simp)
    · push_neg at h2 h3
      rintro (h | h | h | h | h) <;> omega

/-- The `|| default` idiom never yields zero when the default is nonzero. -/
theorem jsOr_ne_zero (x : Option ℤ) (d : ℤ) (hd : d ≠ 0) : jsOr x d ≠ 0 := by
  unfold jsOr
  cases x with
  | none => exact hd
  | some v =>
    dsimp only
    split
    · exact hd
    · assumption

/-- With nonzero arguments (as the middleware always passes), the LRU store
constructor errors exactly when an argument is negative. -/
theorem lruCacheCtor_error_iff (maxArg ttlArg : ℤ) (hm : maxArg ≠ 0) (ht : ttlArg ≠ 0) :
    (∃ e, lruCacheCtor maxArg ttlArg = .error e) ↔ (maxArg < 0 ∨ ttlArg < 0) := by
  unfold lruCacheCtor
  split_ifs with h1 h2 h3
  · exact iff_of_true ⟨_, rfl⟩ (Or.inl (by omega))
  · exact iff_of_true ⟨_, rfl⟩ (Or.inr (by omega))
  · exact absurd h3.1 hm
  · refine iff_of_false ?_ ?_
    · rintro ⟨e, he⟩
      exact absurd he (by simp)
    · have h1g : 0 < maxArg := by
        rcases lt_trichotomy maxArg 0 with h | h | h
        · exact absurd ⟨hm, by omega⟩ h1
        · exact absurd h hm
        · exact h
      have h2g : 0 < ttlArg := by
        rcases lt_trichotomy ttlArg 0 with h | h | h
        · exact absurd ⟨ht, by omega⟩ h2
        · exact absurd h ht
        · exact h
      omega

/-- Claim C7 counterexample: the claimed raise-iff fails around the LRU
store constructor.  With advanced features disabled and `maxSize = -5` the
claim says any configuration is accepted, but the store receives
`max = -5` and throws a `TypeError` synchronously; and in adaptive mode the
configuration `minTTL = -10, defaultTTL = -5` passes `validateOptions` (so
the claim says no error) yet construction still throws, because the store
receives the negative `ttl = -5000`. -/
theorem lru_ctor_throws_outside_claim :
    advancedEnabled { maxSize := some (-5) } = false
  ∧ mkMiddleware { maxSize := some (-5) } 0
      = .error "max option must be a nonnegative integer"
  ∧ validateOptions
      { enableAdaptiveTTL := some true, minTTL := some (-10), defaultTTL := some (-5) }
      = .ok ()
  ∧ mkMiddleware
      { enableAdaptiveTTL := some true, minTTL := some (-10), defaultTTL := some (-5) } 0
      = .error "ttl must be a positive integer if specified" :=
  ⟨rfl, rfl, rfl, rfl⟩

/-- Claim C7 as amended: construction throws synchronously if and only if
an advanced feature is requested together with `minTTL >= maxTTL`,
`defaultTTL` outside `[minTTL, maxTTL]`, or capacity outside `[1, 10000]`
(the ConfigurationError of `validateOptions`, nullish defaults applied), OR
the third-party LRU store receives an invalid argument: the effective
capacity `maxSize || 1000` is negative, or the effective TTL
`(defaultTTL || 30) * 1000` is negative (the store's own `TypeError`, which
can fire in basic mode and even in advanced mode when validation passes).
After construction no operation can raise either error: the operational
semantics `runOp` is a total function into states, and neither validation
is invoked again. -/
theorem configError_iff (o : QuoteCacheOptions) (now : ℤ) :
    (∃ e, mkMiddleware o now = .error e) ↔
      ((advancedEnabled o = true
        ∧ (o.maxTTL.getD 120 ≤ o.minTTL.getD 5
          ∨ o.defaultTTL.getD 30 < o.minTTL.getD 5
          ∨ o.maxTTL.getD 120 < o.defaultTTL.getD 30
          ∨ o.maxSize.getD 1000 < 1
          ∨ 10000 < o.maxSize.getD 1000))
        ∨ jsOr o.maxSize 1000 < 0
        ∨ cacheTtlMs o < 0) := by
  have hm : jsOr o.maxSize 1000 ≠ 0 := jsOr_ne_zero _ _ (by norm_num)
  have ht : cacheTtlMs o ≠ 0 := by
    unfold cacheTtlMs
    exact mul_ne_zero (jsOr_ne_zero _ _ (by norm_num)) (by norm_num)
  unfold mkMiddleware
  cases hval : (if advancedEnabled o then validateOptions o else Except.ok ()) with
  | error e =>
    refine iff_of_true ⟨e, rfl⟩ (Or.inl ?_)
    by_cases ha : advancedEnabled o = true
    · rw [if_pos ha] at hval
      exact ⟨ha, (validateOptions_error_iff o).mp ⟨e, hval⟩⟩
    · rw [if_neg ha] at hval
      exact absurd hval (by simp)
  | ok u =>
    cases hl : lruCacheCtor (jsOr o.maxSize 1000) (cacheTtlMs o) with
    | error e =>
      exact iff_of_true ⟨e, rfl⟩
        (Or.inr ((lruCacheCtor_error_iff _ _ hm ht).mp ⟨e, hl⟩))
    | ok v =>
      refine iff_of_false ?_ ?_
      · rintro ⟨e, he⟩
        exact absurd he (by simp)
      · rintro (⟨ha, hconds⟩ | hneg | hneg)
        · rcases (validateOptions_error_iff o).mpr hconds with ⟨e, he⟩
          rw [if_pos ha, he] at hval
          exact absurd hval (by simp)
        · rcases (lruCacheCtor_error_iff _ _ hm ht).mpr (Or.inl hneg) with ⟨e, he⟩
          rw [he] at hl
          exact absurd hl (by simp)
        · rcases (lruCacheCtor_error_iff _ _ hm ht).mpr (Or.inr hneg) with ⟨e, he⟩
          rw [he] at hl
          exact absurd hl (by simp)

/-! ## C8 - the volatility estimate is the standard deviation of the valid
relative changes -/

/-- Modelled from the spec (4.4): the sequence of relative changes
`(curr - prev) / prev` between consecutive observations, skipping any pair
where either value is non-positive or non-finite. -/
def specRelChanges (prices : List JSNum) : List ℚ :=
  (prices.zip prices.tail).filterMap (fun pr =>
    match pr with
    | (.val p, .val c) => if 0 < p ∧ 0 < c then some ((c - p) / p) else none
    | _ => none)

/-- Modelled from the spec (4.4): the standard deviation of the valid
relative-change sequence, or 0 if fewer than one valid change exists. -/
noncomputable def specVolatility (prices : List JSNum) : ℝ :=
  if (specRelChanges prices).length < 1 then 0
  else Real.sqrt (listVar (specRelChanges prices))

/-- The code's relative-change loop computes exactly the spec's valid
relative-change sequence. -/
theorem volChanges_eq_spec (l : List JSNum) : volChanges l = specRelChanges l := by
  induction l with
  | nil => rfl
  | cons a t ih =>
    cases t with
    | nil => rfl
    | cons b r =>
      show pairChange a b ++ volChanges (b :: r) = _
      rw [ih]
      unfold specRelChanges
      simp only [List.tail_cons, List.zip_cons_cons, List.filterMap_cons]
      cases a <;> cases b <;>
        simp only [pairChange, jsLe0, jsIsFinite, Bool.not_true, Bool.not_false,
          Bool.or_true, Bool.true_or, Bool.or_false, Bool.false_or, if_true,
          List.nil_append, List.singleton_append]
      case val.val p c =>
        by_cases hp : 0 < p
        · by_cases hc : 0 < c
          · rw [if_neg, if_pos ⟨hp, hc⟩]
            · rfl
            · simp [not_lt.mpr, hp, hc, not_lt_of_gt hp, not_lt_of_gt hc, not_le.mpr hp,
                not_le.mpr hc]
          · rw [if_pos, if_neg (fun h => hc h.2)]
            · exact List.nil_append _
            · simp only [Bool.or_eq_true, decide_eq_true_eq]
              exact Or.inr (not_lt.mp hc)
        · rw [if_pos, if_neg (fun h => hp h.1)]
          · exact List.nil_append _
          · simp only [Bool.or_eq_true, decide_eq_true_eq]
            exact Or.inl (not_lt.mp hp)

/-- A history of fewer than two observations yields no change pairs. -/
theorem volChanges_short (l : List JSNum) (h : l.length < 2) : volChanges l = [] := by
  cases l with
  | nil => rfl
  | cons a t =>
    cases t with
    | nil => rfl
    | cons b r =>
      simp only [List.length_cons] at h
      omega

/-- The population variance accumulator is nonnegative. -/
theorem listVar_nonneg (l : List ℚ) : 0 ≤ listVar l := by
  unfold listVar
  apply div_nonneg
  · apply List.sum_nonneg
    intro x hx
    simp only [List.mem_map] at hx
    rcases hx with ⟨c, -, rfl⟩
    exact mul_self_nonneg _
  · exact_mod_cast Nat.zero_le _

/-- The volatility's radicand is nonnegative (so the negative-variance clamp
of the source is dead). -/
theorem calculateVolatilitySq_nonneg (pc : JSMap (List JSNum)) (k : String) :
    0 ≤ calculateVolatilitySq pc k := by
  unfold calculateVolatilitySq
  cases h : mapGet pc k with
  | none => exact le_refl 0
  | some prices =>
    dsimp only
    split_ifs with h1 h2 h3
    · exact le_refl 0
    · exact le_refl 0
    · exact le_refl 0
    · exact le_of_not_lt h3

/-- The squared-threshold comparisons used by `volAdjust` agree with the
source's comparisons of the square-root volatility against `0.05` and
`0.01`. -/
theorem volAdjust_matchesSqrtComparisons (pc : JSMap (List JSNum)) (k : String) :
    ((5 / 100 : ℝ) < calculateVolatility pc k ↔ highVolSq < calculateVolatilitySq pc k)
  ∧ (calculateVolatility pc k < (1 / 100 : ℝ) ↔ calculateVolatilitySq pc k < lowVolSq) := by
  have h400 : ((highVolSq : ℚ) : ℝ) = ((5 : ℝ) / 100) ^ 2 := by
    rw [highVolSq, Rat.mkRat_eq_div]
    push_cast
    norm_num
  have h10000 : ((lowVolSq : ℚ) : ℝ) = ((1 : ℝ) / 100) ^ 2 := by
    rw [lowVolSq, Rat.mkRat_eq_div]
    push_cast
    norm_num
  constructor
  · rw [calculateVolatility, Real.lt_sqrt (by norm_num)]
    rw [show ((5 : ℝ) / 100) ^ 2 = ((highVolSq : ℚ) : ℝ) from h400.symm]
    exact_mod_cast Iff.rfl
  · rw [calculateVolatility, Real.sqrt_lt' (by norm_num)]
    rw [show ((1 : ℝ) / 100) ^ 2 = ((lowVolSq : ℚ) : ℝ) from h10000.symm]
    exact_mod_cast Iff.rfl

/-- Claim C8: the volatility function returns the standard deviation of the
relative changes `(curr - prev) / prev` over consecutive observation pairs,
skipping any pair with a non-positive or non-finite value; it returns 0 when
fewer than one valid change exists; on the history `[100, 100, 100, 100]` it
returns 0; and for every input it is a well-defined nonnegative real number
(the embedding is a total function - it cannot raise - and `ℝ` has no
non-finite values to return; the source's negative-variance and `isFinite`
clamps are dead branches by `calculateVolatilitySq_nonneg`). -/
theorem volatility_is_stddev_of_changes :
    (∀ pc k, calculateVolatility pc k = specVolatility ((mapGet pc k).getD []))
  ∧ (∀ pc k, 0 ≤ calculateVolatility pc k)
  ∧ calculateVolatility
      [("k", [JSNum.val 100, JSNum.val 100, JSNum.val 100, JSNum.val 100])] "k" = 0 := by
  refine ⟨?_, fun pc k => Real.sqrt_nonneg _, ?_⟩
  · intro pc k
    unfold calculateVolatility calculateVolatilitySq specVolatility
    cases h : mapGet pc k with
    | none =>
      simp [specRelChanges, Real.sqrt_zero]
    | some prices =>
      dsimp only [Option.getD_some]
      rw [← volChanges_eq_spec]
      by_cases h2 : prices.length < 2
      · rw [if_pos h2, volChanges_short prices h2]
        simp [Real.sqrt_zero]
      · rw [if_neg h2]
        by_cases h3 : (volChanges prices).length = 0
        · rw [if_pos h3, if_pos (by omega : (volChanges prices).length < 1)]
          simp [Real.sqrt_zero]
        · rw [if_neg h3, if_neg (not_lt.mpr (listVar_nonneg _)),
            if_neg (by omega : ¬ (volChanges prices).length < 1)]
  · have hsq : calculateVolatilitySq
        [("k", [JSNum.val 100, JSNum.val 100, JSNum.val 100, JSNum.val 100])] "k" = 0 := by
      norm_num [calculateVolatilitySq, mapGet, volChanges, pairChange, jsLe0, jsIsFinite,
        listVar, listMean]
    rw [calculateVolatility, hsq]
    simp

/-! ## C9 - clear and destroy cancel every pending timer and release all state -/

/-- Evolution relation on the timer bookkeeping between two states: the
timer counter only grows, and every tracked timer either existed before or
was created with an identity taken from the counter in between. -/
abbrev TimerEvolves (s t : CacheState) : Prop :=
  s.nextTimer ≤ t.nextTimer ∧
    ∀ p ∈ t.cleanupTimers, p ∈ s.cleanupTimers ∨ (s.nextTimer ≤ p.1 ∧ p.1 < t.nextTimer)

/-- Timer evolution is reflexive. -/
theorem TimerEvolves.rfl (s : CacheState) : TimerEvolves s s :=
  ⟨le_refl _, fun _ hp => Or.inl hp⟩

/-- A step that leaves the timer bookkeeping untouched evolves it. -/
theorem TimerEvolves.of_eq {s t : CacheState} (ht : t.cleanupTimers = s.cleanupTimers)
    (hn : t.nextTimer = s.nextTimer) : TimerEvolves s t := by
  refine ⟨hn.ge, fun p hp => Or.inl ?_⟩
  rw [ht] at hp
  exact hp

/-- Timer evolution composes. -/
theorem TimerEvolves.trans {s t u : CacheState} (h1 : TimerEvolves s t)
    (h2 : TimerEvolves t u) : TimerEvolves s u := by
  refine ⟨h1.1.trans h2.1, fun p hp => ?_⟩
  rcases h2.2 p hp with h | ⟨ha, hb⟩
  · rcases h1.2 p h with h | ⟨ha, hb⟩
    · exact Or.inl h
    · exact Or.inr ⟨ha, hb.trans_le h2.1⟩
  · exact Or.inr ⟨h1.1.trans ha, hb⟩

/-- Scheduling a warm-up only adds a timer carrying the fresh counter
value. -/
theorem scheduleWarmUp_evolves (s : CacheState) (k : String) :
    TimerEvolves s (scheduleWarmUp s k) := by
  unfold scheduleWarmUp
  split
  · exact TimerEvolves.rfl s
  · refine ⟨by dsimp only; omega, ?_⟩
    intro p hp
    dsimp only at hp
    rcases List.mem_append.mp hp with h | h
    · exact Or.inl h
    · rcases List.mem_singleton.mp h with rfl
      exact Or.inr ⟨le_refl _, by dsimp only; omega⟩

/-- Scheduling on any state whose timer bookkeeping equals the reference
state's evolves the reference state. -/
theorem scheduleWarmUp_evolves_of (s t : CacheState) (k : String)
    (ht : t.cleanupTimers = s.cleanupTimers) (hn : t.nextTimer = s.nextTimer) :
    TimerEvolves s (scheduleWarmUp t k) :=
  (TimerEvolves.of_eq ht hn).trans (scheduleWarmUp_evolves t k)

/-- Usage tracking evolves the timers (through `scheduleWarmUp` or not at
all). -/
theorem trackUsagePattern_evolves (s : CacheState) (k : String) (now : ℤ) :
    TimerEvolves s (trackUsagePattern s k now) := by
  unfold trackUsagePattern
  dsimp only
  split
  · exact scheduleWarmUp_evolves_of s _ k rfl rfl
  · exact TimerEvolves.rfl _

/-- Usage tracking on a state with the reference state's timer bookkeeping
evolves the reference state. -/
theorem trackUsagePattern_evolves_of (s t : CacheState) (k : String) (now : ℤ)
    (ht : t.cleanupTimers = s.cleanupTimers) (hn : t.nextTimer = s.nextTimer) :
    TimerEvolves s (trackUsagePattern t k now) :=
  (TimerEvolves.of_eq ht hn).trans (trackUsagePattern_evolves t k now)

/-- The pending-request tail of `pre` does not touch the timer
bookkeeping. -/
theorem preCheckPending_timers (s : CacheState) (k : String) (now : ℤ) :
    (preCheckPending s k now).1.cleanupTimers = s.cleanupTimers
  ∧ (preCheckPending s k now).1.nextTimer = s.nextTimer := by
  unfold preCheckPending
  cases mapGet s.pendingRequests k with
  | none => exact ⟨rfl, rfl⟩
  | some p => cases p <;> exact ⟨rfl, rfl⟩

/-- The cached-entry check of `pre` does not touch the timer bookkeeping. -/
theorem preAfterKey_timers (s2 : CacheState) (key : String) (now : ℤ) :
    (preAfterKey s2 key now).1.cleanupTimers = s2.cleanupTimers
  ∧ (preAfterKey s2 key now).1.nextTimer = s2.nextTimer := by
  unfold preAfterKey
  split
  · split
    · exact ⟨rfl, rfl⟩
    · exact preCheckPending_timers _ _ _
  · exact preCheckPending_timers _ _ _

/-- The `pre` hook evolves the timer bookkeeping. -/
theorem preStep_evolves (s : CacheState) (ctx : RequestContext) (now : ℤ) :
    TimerEvolves s (preStep s ctx now).1 := by
  unfold preStep
  split
  · exact TimerEvolves.rfl _
  · split
    · exact TimerEvolves.of_eq rfl rfl
    · rename_i key hkeyEq
      dsimp only
      split
      · have h1 : TimerEvolves s (trackUsagePattern
            { s with metrics := { s.metrics with requests := s.metrics.requests + 1 } } key now) :=
          trackUsagePattern_evolves_of s _ key now rfl rfl
        exact h1.trans
          (TimerEvolves.of_eq (preAfterKey_timers _ key now).1 (preAfterKey_timers _ key now).2)
      · exact TimerEvolves.of_eq (preAfterKey_timers _ _ _).1 (preAfterKey_timers _ _ _).2

/-- The price tracker does not touch the timer bookkeeping. -/
theorem trackPriceChange_timers (s : CacheState) (k d : String) :
    (trackPriceChange s k d).cleanupTimers = s.cleanupTimers
  ∧ (trackPriceChange s k d).nextTimer = s.nextTimer := by
  unfold trackPriceChange
  split
  · exact ⟨rfl, rfl⟩
  · dsimp only
    split
    · exact ⟨rfl, rfl⟩
    · exact ⟨rfl, rfl⟩

/-- The `post` hook does not touch the timer bookkeeping. -/
theorem postStep_timers (s : CacheState) (ctx : ResponseContext) (now : ℤ) :
    (postStep s ctx now).1.cleanupTimers = s.cleanupTimers
  ∧ (postStep s ctx now).1.nextTimer = s.nextTimer := by
  unfold postStep
  split
  · exact ⟨rfl, rfl⟩
  · split
    · exact ⟨rfl, rfl⟩
    · split
      · exact ⟨rfl, rfl⟩
      · split
        · exact ⟨rfl, rfl⟩
        · dsimp only
          split
          · exact ⟨(trackPriceChange_timers _ _ _).1, (trackPriceChange_timers _ _ _).2⟩
          · exact ⟨rfl, rfl⟩

/-- The cleanup sweep does not touch the timer bookkeeping. -/
theorem performCleanup_timers (s : CacheState) (now : ℤ) :
    (performCleanup s now).cleanupTimers = s.cleanupTimers
  ∧ (performCleanup s now).nextTimer = s.nextTimer :=
  ⟨rfl, rfl⟩

/-- A firing warm-up callback only removes timers. -/
theorem fireWarmUp_evolves (s : CacheState) (id : ℕ) (key : String) (now : ℤ) :
    TimerEvolves s (fireWarmUp s id key now) := by
  unfold fireWarmUp
  repeat' split
  all_goals
    refine ⟨le_refl _, fun p hp => Or.inl ?_⟩
  all_goals
    exact (List.mem_filter.mp hp).1

/-- Firing any tracked timer evolves the bookkeeping. -/
theorem fireStep_evolves (s : CacheState) (id : ℕ) (now : ℤ) :
    TimerEvolves s (fireStep s id now) := by
  unfold fireStep
  repeat' split
  all_goals first
    | exact TimerEvolves.rfl _
    | exact TimerEvolves.of_eq (performCleanup_timers _ _).1 (performCleanup_timers _ _).2
    | exact fireWarmUp_evolves _ _ _ _

/-- Every operation evolves the timer bookkeeping. -/
theorem runOp_evolves (s : CacheState) (op : CacheOp) : TimerEvolves s (runOp s op) := by
  cases op with
  | pre ctx now => exact preStep_evolves s ctx now
  | post ctx now => exact TimerEvolves.of_eq (postStep_timers s ctx now).1 (postStep_timers s ctx now).2
  | clearAll => exact ⟨le_refl _, fun p hp => absurd hp (List.not_mem_nil p)⟩
  | destroy => exact ⟨le_refl _, fun p hp => absurd hp (List.not_mem_nil p)⟩
  | fire id now => exact fireStep_evolves s id now

/-- A successful construction yields exactly the fresh state. -/
theorem mkMiddleware_ok (o : QuoteCacheOptions) (now : ℤ) (s : CacheState)
    (h : mkMiddleware o now = .ok s) : s = initState o now := by
  unfold mkMiddleware at h
  cases hval : (if advancedEnabled o then validateOptions o else Except.ok ()) with
  | error e =>
    rw [hval] at h
    exact absurd h (by simp)
  | ok u =>
    rw [hval] at h
    cases hl : lruCacheCtor (jsOr o.maxSize 1000) (cacheTtlMs o) with
    | error e =>
      rw [hl] at h
      exact absurd h (by simp)
    | ok v =>
      rw [hl] at h
      injection h with h2
      exact h2.symm

/-- In every reachable state, every tracked timer's identity is below the
counter, so cancelled identities are never reused. -/
theorem reachable_timersBounded (s : CacheState) (hs : Reachable s) :
    ∀ p ∈ s.cleanupTimers, p.1 < s.nextTimer := by
  induction hs with
  | init o now s h =>
    rw [mkMiddleware_ok o now s h]
    intro p hp
    by_cases ha : advancedEnabled o = true <;>
      simp only [initState, ha, if_true, if_false, Bool.false_eq_true] at hp ⊢ <;>
      first
        | (rcases List.mem_singleton.mp hp with rfl; omega)
        | exact absurd hp (List.not_mem_nil p)
  | step s op hs ih =>
    intro p hp
    rcases (runOp_evolves s op).2 p hp with h | ⟨-, h2⟩
    · exact (ih p h).trans_le (runOp_evolves s op).1
    · exact h2

/-- A timer identity that is absent and below the counter never becomes
pending again along any operation sequence. -/
theorem timer_never_revived (id : ℕ) (ops : List CacheOp) :
    ∀ t : CacheState, (∀ k, (id, k) ∉ t.cleanupTimers) → id < t.nextTimer →
      ∀ k, (id, k) ∉ (ops.foldl runOp t).cleanupTimers := by
  induction ops with
  | nil =>
    intro t h1 h2 k
    exact h1 k
  | cons op rest ih =>
    intro t h1 h2 k
    simp only [List.foldl_cons]
    refine ih (runOp t op) ?_ ?_ k
    · intro k2 hk2
      rcases (runOp_evolves t op).2 _ hk2 with h | ⟨hge, -⟩
      · exact h1 k2 h
      · omega
    · exact h2.trans_le (runOp_evolves t op).1

/-- Claim C9: after `clear` (or `destroy`, which delegates to `clear`)
completes, every store, tracker, queue and metric of the instance is reset,
the tracked-timer set is empty, and no timer that was pending at that moment
can ever fire afterwards: its identity never reappears in the tracked set
along any further operation sequence (firing requires a tracked identity,
and identities are never reused). -/
theorem clear_cancels_everything (s : CacheState) (hs : Reachable s) :
    (clearStep s).cache = [] ∧ (clearStep s).pendingRequests = []
  ∧ (clearStep s).metrics = initMetrics ∧ (clearStep s).responseTimes = []
  ∧ (clearStep s).priceChanges = [] ∧ (clearStep s).requestHistory = []
  ∧ (clearStep s).usagePatterns = [] ∧ (clearStep s).warmingQueue = []
  ∧ (clearStep s).cleanupTimers = []
  ∧ runOp s CacheOp.destroy = clearStep s
  ∧ (∀ id k, (id, k) ∈ s.cleanupTimers →
      ∀ (ops : List CacheOp) (k2 : TimerKind),
        (id, k2) ∉ (ops.foldl runOp (clearStep s)).cleanupTimers) := by
  refine ⟨rfl, rfl, rfl, rfl, rfl, rfl, rfl, rfl, rfl, rfl, ?_⟩
  intro id k hmem ops k2
  refine timer_never_revived id ops (clearStep s) ?_ ?_ k2
  · intro k3
    exact List.not_mem_nil _
  · exact reachable_timersBounded s hs (id, k) hmem

/-- Witness for `clear_cancels_everything`: the periodic-cleanup timer of a
fresh adaptive instance, pending before `clear`, is not pending after
`clear` even after a later attempt to fire it. -/
theorem clear_cancels_everything_witness :
    ((0 : ℕ), TimerKind.cleanupInterval) ∉
      (([CacheOp.fire 0 500] : List CacheOp).foldl runOp
        (clearStep (initState adaptiveOpts 0))).cleanupTimers :=
  (clear_cancels_everything (initState adaptiveOpts 0)
      (Reachable.init adaptiveOpts 0 _ rfl)).2.2.2.2.2.2.2.2.2.2
    0 TimerKind.cleanupInterval (by decide) [CacheOp.fire 0 500] TimerKind.cleanupInterval

/-! ## C10 - every stored price observation is finite and strictly positive -/

/-- A well-formed price observation: a finite, strictly positive number. -/
def GoodObs (x : JSNum) : Prop := ∃ q : ℚ, x = JSNum.val q ∧ 0 < q

/-- The implicit invariant: every number in every fingerprint's price
history is finite and strictly positive. -/
def GoodPriceChanges (s : CacheState) : Prop :=
  ∀ p ∈ s.priceChanges, ∀ x ∈ p.2, GoodObs x

/-- A successful `mapGet` exhibits a member of the map. -/
theorem mapGet_mem {α : Type} (m : JSMap α) (k : String) (v : α)
    (h : mapGet m k = some v) : (k, v) ∈ m := by
  induction m with
  | nil => exact absurd h (by simp [mapGet])
  | cons q rest ih =>
    unfold mapGet at h
    split at h
    · rename_i hk
      injection h with h2
      rw [← hk, ← h2]
      exact List.mem_cons_self q rest
    · exact List.mem_cons_of_mem q (ih h)

/-- Members of a map after `set` are old members or carry the new value. -/
theorem mem_mapSet {α : Type} (m : JSMap α) (k : String) (v : α) (p : String × α)
    (h : p ∈ mapSet m k v) : p ∈ m ∨ p.2 = v := by
  induction m with
  | nil =>
    rcases List.mem_singleton.mp h with rfl
    exact Or.inr rfl
  | cons q rest ih =>
    unfold mapSet at h
    split at h
    · rcases List.mem_cons.mp h with rfl | hm
      · exact Or.inr rfl
      · exact Or.inl (List.mem_cons_of_mem q hm)
    · rcases List.mem_cons.mp h with rfl | hm
      · exact Or.inl (List.mem_cons_self _ _)
      · rcases ih hm with hin | hv
        · exact Or.inl (List.mem_cons_of_mem q hin)
        · exact Or.inr hv

/-- Deletion only removes entries. -/
theorem mapDelete_subset {α : Type} (m : JSMap α) (k : String) (p : String × α)
    (h : p ∈ mapDelete m k) : p ∈ m := by
  induction m with
  | nil => exact absurd h (List.not_mem_nil p)
  | cons q rest ih =>
    unfold mapDelete at h
    split at h
    · exact List.mem_cons_of_mem q h
    · rcases List.mem_cons.mp h with rfl | hm
      · exact List.mem_cons_self _ _
      · exact List.mem_cons_of_mem q (ih hm)

/-- Batch deletion only removes entries. -/
theorem deleteKeys_subset {α : Type} (ks : List String) (m : JSMap α) (p : String × α)
    (h : p ∈ deleteKeys m ks) : p ∈ m := by
  induction ks generalizing m with
  | nil => exact h
  | cons k rest ih =>
    unfold deleteKeys at h ih
    exact mapDelete_subset m k p (ih (mapDelete m k) h)

/-- The warm-up scheduler does not touch the price histories. -/
theorem scheduleWarmUp_pc (s : CacheState) (k : String) :
    (scheduleWarmUp s k).priceChanges = s.priceChanges := by
  unfold scheduleWarmUp
  split <;> rfl

/-- The usage tracker does not touch the price histories. -/
theorem trackUsagePattern_pc (s : CacheState) (k : String) (now : ℤ) :
    (trackUsagePattern s k now).priceChanges = s.priceChanges := by
  unfold trackUsagePattern
  dsimp only
  split
  · exact scheduleWarmUp_pc _ _
  · rfl

/-- The pending-request tail of `pre` does not touch the price histories. -/
theorem preCheckPending_pc (s : CacheState) (k : String) (now : ℤ) :
    (preCheckPending s k now).1.priceChanges = s.priceChanges := by
  unfold preCheckPending
  cases mapGet s.pendingRequests k with
  | none => rfl
  | some p => cases p <;> rfl

/-- The cached-entry check of `pre` does not touch the price histories. -/
theorem preAfterKey_pc (s2 : CacheState) (key : String) (now : ℤ) :
    (preAfterKey s2 key now).1.priceChanges = s2.priceChanges := by
  unfold preAfterKey
  split
  · split
    · rfl
    · exact preCheckPending_pc _ _ _
  · exact preCheckPending_pc _ _ _

/-- The `pre` hook does not touch the price histories. -/
theorem preStep_pc (s : CacheState) (ctx : RequestContext) (now : ℤ) :
    (preStep s ctx now).1.priceChanges = s.priceChanges := by
  unfold preStep
  split
  · rfl
  · split
    · rfl
    · rename_i key hkeyEq
      dsimp only
      split
      · exact (preAfterKey_pc _ key now).trans (trackUsagePattern_pc _ key now)
      · exact preAfterKey_pc _ _ _

/-- The warm-up callback does not touch the price histories. -/
theorem fireWarmUp_pc (s : CacheState) (id : ℕ) (key : String) (now : ℤ) :
    (fireWarmUp s id key now).priceChanges = s.priceChanges := by
  unfold fireWarmUp
  split
  · split <;> rfl
  · rfl

/-- Recording an observation preserves the invariant: the appended price
passed the finiteness and positivity guard, and dropping the oldest entry
only removes observations. -/
theorem trackPriceChange_good (s : CacheState) (k d : String)
    (hg : GoodPriceChanges s) : GoodPriceChanges (trackPriceChange s k d) := by
  unfold trackPriceChange
  cases extractOutAmount d with
  | none => exact hg
  | some amt =>
    dsimp only
    split
    · exact hg
    · rename_i hguard
      intro p hp x hx
      rcases mem_mapSet _ _ _ p hp with hm | he
      · exact hg p hm x hx
      · rw [he] at hx
        have hx2 : x ∈ (mapGet s.priceChanges k).getD [] ++ [parseFloat amt] := by
          revert hx
          split
          · exact fun hx => List.mem_of_mem_drop hx
          · exact id
        rcases List.mem_append.mp hx2 with hold | hnew
        · cases hget : mapGet s.priceChanges k with
          | none =>
            rw [hget] at hold
            exact absurd hold (List.not_mem_nil x)
          | some old =>
            rw [hget] at hold
            exact hg (k, old) (mapGet_mem _ _ _ hget) x hold
        · rcases List.mem_singleton.mp hnew with rfl
          cases hpf : parseFloat amt with
          | nan => rw [hpf] at hguard; exact absurd rfl hguard
          | posInf => rw [hpf] at hguard; exact absurd rfl hguard
          | negInf => rw [hpf] at hguard; exact absurd rfl hguard
          | val q =>
            rw [hpf] at hguard
            refine ⟨q, rfl, ?_⟩
            by_contra hq
            exact hguard (by simp [jsIsFinite, jsLe0, not_lt.mp hq])

/-- The cleanup sweep preserves the invariant: it only removes entries. -/
theorem performCleanup_good (s : CacheState) (now : ℤ)
    (hg : GoodPriceChanges s) : GoodPriceChanges (performCleanup s now) := by
  unfold performCleanup
  intro p hp
  dsimp only at hp
  have hp2 : p ∈ s.priceChanges.filter (fun kv => !kv.2.isEmpty) := by
    revert hp
    split
    · exact fun hp => deleteKeys_subset _ _ p hp
    · exact id
  exact hg p (List.mem_filter.mp hp2).1

/-- Recording an observation on a state with the reference state's price
histories preserves the reference invariant. -/
theorem trackPriceChange_good_of (s t : CacheState) (k d : String)
    (hpc : t.priceChanges = s.priceChanges)
    (hg : GoodPriceChanges s) : GoodPriceChanges (trackPriceChange t k d) :=
  trackPriceChange_good t k d (fun p hp => hg p (hpc ▸ hp))

/-- The `post` hook preserves the invariant. -/
theorem postStep_good (s : CacheState) (ctx : ResponseContext) (now : ℤ)
    (hg : GoodPriceChanges s) : GoodPriceChanges (postStep s ctx now).1 := by
  unfold postStep
  split
  · exact hg
  · split
    · exact hg
    · rename_i key hkey
      split
      · exact hg
      · split
        · exact hg
        · rename_i ttl httl
          dsimp only
          split
          · intro p hp
            have hgood : GoodPriceChanges (trackPriceChange { s with
                cache := mapSet s.cache key {
                  response := {
                    status := ctx.response.status,
                    statusText := ctx.response.statusText,
                    headers := ctx.response.headers,
                    body := ctx.response.body },
                  timestamp := now, lruStart := now, lruTTL := ttl } }
                key ctx.response.body) :=
              trackPriceChange_good_of s _ key ctx.response.body rfl hg
            exact hgood p hp
          · exact hg

/-- Every operation preserves the invariant. -/
theorem runOp_good (s : CacheState) (op : CacheOp)
    (hg : GoodPriceChanges s) : GoodPriceChanges (runOp s op) := by
  cases op with
  | pre ctx now =>
    intro p hp
    rw [show (runOp s (CacheOp.pre ctx now)).priceChanges = s.priceChanges from
      preStep_pc s ctx now] at hp
    exact hg p hp
  | post ctx now => exact postStep_good s ctx now hg
  | clearAll => intro p hp; exact absurd hp (List.not_mem_nil p)
  | destroy => intro p hp; exact absurd hp (List.not_mem_nil p)
  | fire id now =>
    show GoodPriceChanges (fireStep s id now)
    unfold fireStep
    split
    · exact hg
    · exact performCleanup_good s now hg
    · intro p hp
      rw [fireWarmUp_pc] at hp
      exact hg p hp

/-- A pair of well-formed observations always survives the relative-change
guard, producing exactly one change. -/
theorem pairChange_good (a b : JSNum) (ha : GoodObs a) (hb : GoodObs b) :
    (pairChange a b).length = 1 := by
  rcases ha with ⟨p, rfl, hp⟩
  rcases hb with ⟨c, rfl, hc⟩
  unfold pairChange
  rw [if_neg]
  · rfl
  · simp [jsLe0, jsIsFinite, not_le.mpr hp, not_le.mpr hc]

/-- On a history of well-formed observations no pair is skipped: every
consecutive pair contributes a change. -/
theorem volChanges_full (l : List JSNum) (h : ∀ x ∈ l, GoodObs x) :
    (volChanges l).length = l.length - 1 := by
  induction l with
  | nil => rfl
  | cons a t ih =>
    cases t with
    | nil => rfl
    | cons b r =>
      show (pairChange a b ++ volChanges (b :: r)).length = _
      rw [List.length_append,
        pairChange_good a b (h a (List.mem_cons_self _ _))
          (h b (List.mem_cons_of_mem a (List.mem_cons_self _ _))),
        ih (fun x hx => h x (List.mem_cons_of_mem a hx))]
      simp only [List.length_cons]
      omega

/-- Claim C10: in every reachable state, every number stored in any
fingerprint's price history is finite and strictly positive (the recorder
filters out missing, non-string, non-finite and non-positive amounts before
appending), and consequently on such histories the skip-guards of the
volatility computation never fire: every well-formed pair yields exactly one
relative change and a history of n observations yields exactly n - 1
changes. -/
theorem priceHistory_invariant :
    (∀ s, Reachable s → GoodPriceChanges s)
  ∧ (∀ a b, GoodObs a → GoodObs b → (pairChange a b).length = 1)
  ∧ (∀ l, (∀ x ∈ l, GoodObs x) → (volChanges l).length = l.length - 1) := by
  refine ⟨?_, pairChange_good, volChanges_full⟩
  intro s hs
  induction hs with
  | init o now s h =>
    rw [mkMiddleware_ok o now s h]
    intro p hp
    exact absurd hp (List.not_mem_nil p)
  | step s op hs ih => exact runOp_good s op ih

/-- Witness for `priceHistory_invariant`: a two-observation history of
well-formed prices yields exactly one relative change (and the freshly
constructed adaptive state satisfies the invariant). -/
theorem priceHistory_invariant_witness :
    (volChanges [JSNum.val 100, JSNum.val 200]).length = 1 := by
  have h := priceHistory_invariant.2.2 [JSNum.val 100, JSNum.val 200] ?_
  · simpa using h
  · intro x hx
    rcases List.mem_cons.mp hx with rfl | hx2
    · exact ⟨100, rfl, by norm_num⟩
    · rcases List.mem_singleton.mp hx2 with rfl
      exact ⟨200, rfl, by norm_num⟩

end JupApi
